import Mathlib

/-!
Shallow embedding of the aircraft overload classifier front-end
(`src/app.py`, the multi-aircraft batch variant, and `src/app.py.py`,
the single-row variant).

Modelling choices:
* A Python scalar value appearing in an input row is `Val`: a string,
  a number (Python floats are modelled as rationals; every literal the
  application manipulates is exactly representable), or `None`.
* A Python dict is an association list `Row` with first-match lookup;
  dict assignment updates an existing binding in place or appends.
* A pandas `DataFrame` is a `Table`: an ordered column-label list plus
  per-row value lists; `DataFrame(list-of-dicts)` takes the union of the
  keys in first-appearance order, `reindex` aligns by label and fills
  missing columns with a missing value (modelled as `Val.vNone`).
* Python `float(...)` is `pyFloat`: it accepts a decimal string with
  optional surrounding whitespace, optional sign and optional fractional
  part (the forms the application feeds it), and fails on anything else.
* `str.replace("%", "")` and `str.strip()` are `pyReplaceAll`/`pyStrip`
  over the character list.
-/

/-- A Python scalar value held in an input row: a string, a number
(Python float, modelled as a rational), or `None`. -/
inductive Val where
  | vStr (s : String)
  | vNum (q : ℚ)
  | vNone
deriving DecidableEq, Repr

/-- A Python dict from column name to value, as an association list in
insertion order with first-match lookup. -/
abbrev Row := List (String × Val)

/-- First-match association lookup, the semantics of `d[k]` / `k in d`. -/
def rlookup : Row → String → Option Val
  | [], _ => none
  | (k, v) :: r, key => if k = key then some v else rlookup r key

/-- The dict's key list, in insertion order. -/
def keysOf (r : Row) : List String := r.map Prod.fst

/-- Update an existing binding in place (dict assignment to a present key). -/
def setKey (r : Row) (key : String) (v : Val) : Row :=
  r.map (fun p => if p.1 = key then (key, v) else p)

/-- Dict assignment `d[key] = v`: update in place when the key is present,
append otherwise. -/
def setItem (r : Row) (key : String) (v : Val) : Row :=
  if (rlookup r key).isSome then setKey r key v else r ++ [(key, v)]

/-- Python `s.replace("%", "")` for the one-character pattern used here:
remove every occurrence of the character. -/
def pyReplaceAll (s : String) (c : Char) : String :=
  ⟨s.toList.filter (fun a => a ≠ c)⟩

/-- Python `s.strip()`: drop whitespace from both ends. -/
def pyStrip (s : String) : String :=
  ⟨((s.toList.dropWhile Char.isWhitespace).reverse.dropWhile Char.isWhitespace).reverse⟩

/-- Value of a digit string read in base 10. -/
def digitsVal (ds : List Char) : Nat :=
  ds.foldl (fun n c => 10 * n + (c.toNat - 48)) 0

/-- Python `float(string)` on the decimal forms the application feeds it:
optional sign, digits, optional single decimal point; `none` models the
`ValueError` raised on anything else. -/
def parseFloatChars (cs : List Char) : Option ℚ :=
  let signed : Bool × List Char :=
    match cs with
    | '-' :: r => (true, r)
    | '+' :: r => (false, r)
    | _ => (false, cs)
  let neg := signed.1
  let cs1 := signed.2
  let ip := cs1.takeWhile Char.isDigit
  let rest := cs1.dropWhile Char.isDigit
  let mk : ℚ → Option ℚ := fun q => some (if neg then -q else q)
  match rest with
  | [] => if ip.isEmpty then none else mk (mkRat (digitsVal ip) 1)
  | '.' :: fr =>
      if fr.all Char.isDigit && !(ip.isEmpty && fr.isEmpty) then
        mk (mkRat (digitsVal (ip ++ fr)) (10 ^ fr.length))
      else none
  | _ => none

/-- Python `float(s)` on a string (it tolerates surrounding whitespace). -/
def parseFloat (s : String) : Option ℚ := parseFloatChars (pyStrip s).toList

/-- Python `float(v)` on a row value: numbers convert to themselves,
strings are parsed, `None` raises (modelled as `none`). -/
def pyFloat : Val → Option ℚ
  | .vStr s => parseFloat s
  | .vNum q => some q
  | .vNone => none

/-- One iteration of the numeric-coercion loop of `coerce_numeric`
(`src/app.py` lines 175-180) and `build_input_df` (`src/app.py.py` lines
52-57): if key `k` is present and its value is neither `None` nor the
empty string, try `float` on it and keep the float on success; on failure
(`except: pass`) leave the row unchanged. -/
def coerceStep (dd : Row) (k : String) : Row :=
  match rlookup dd k with
  | some v =>
      if v ≠ Val.vNone ∧ v ≠ Val.vStr "" then
        match pyFloat v with
        | some q => setKey dd k (Val.vNum q)
        | none => dd
      else dd
  | none => dd

/-- `coerce_numeric` from `src/app.py` lines 171-181: first strip `%` and
surrounding whitespace from a string-valued "Degree of saturation", then
best-effort float-coerce the three known-numeric fields. -/
def coerce_numeric (d : Row) : Row :=
  let dd :=
    match rlookup d "Degree of saturation" with
    | some (Val.vStr s) =>
        setKey d "Degree of saturation" (Val.vStr (pyStrip (pyReplaceAll s '%')))
    | _ => d
  ["Gross Wt. (lbs)", "Degree of saturation", "CBR"].foldl coerceStep dd

/-- A pandas DataFrame: ordered column labels and one value list per row. -/
structure Table where
  cols : List String
  data : List (List Val)
deriving DecidableEq, Repr

/-- Append a key to the accumulator unless already present (used for the
first-appearance-order column union of `pd.DataFrame(list-of-dicts)`, and
for pandas `Series.unique`). -/
def insertKey (acc : List String) (k : String) : List String :=
  if k ∈ acc then acc else acc ++ [k]

/-- Column labels of `pd.DataFrame(rows)`: union of the rows' keys in
first-appearance order. -/
def unionKeys (rows : List Row) : List String :=
  rows.foldl (fun acc r => (keysOf r).foldl insertKey acc) []

/-- `pd.DataFrame(rows)` for a list of dicts: columns are the key union,
cells missing from a row are the missing value. -/
def dfFromRows (rows : List Row) : Table :=
  let cols := unionKeys rows
  ⟨cols, rows.map (fun r => cols.map (fun c => (rlookup r c).getD Val.vNone))⟩

/-- `DataFrame.reindex(columns=cols)`: align each row to the new labels,
taking the value under the same label and filling absent labels with the
missing value. -/
def Table.reindex (t : Table) (cols : List String) : Table :=
  ⟨cols, t.data.map (fun row =>
    cols.map (fun c => (List.lookup c (t.cols.zip row)).getD Val.vNone))⟩

/-- The values of labelled column `c` down the table (missing value where
the label is absent). -/
def Table.colVals (t : Table) (c : String) : List Val :=
  t.data.map (fun row => (List.lookup c (t.cols.zip row)).getD Val.vNone)

/-- The batch reconciliation of `src/app.py` lines 183-187: coerce every
row, build the DataFrame and reindex to `num_cols + cat_cols`. -/
def reconcileRows (num_cols cat_cols : List String) (rows : List Row) : Table :=
  (dfFromRows (rows.map coerce_numeric)).reindex (num_cols ++ cat_cols)

/-- `build_input_df` from `src/app.py.py` lines 46-60: coerce the numeric
fields of the single row (same code as `coerce_numeric`), build a one-row
DataFrame and reindex it to `num_cols + cat_cols`. -/
def build_input_df (num_cols cat_cols : List String) (row_dict : Row) : Table :=
  let d :=
    match rlookup row_dict "Degree of saturation" with
    | some (Val.vStr s) =>
        setKey row_dict "Degree of saturation" (Val.vStr (pyStrip (pyReplaceAll s '%')))
    | _ => row_dict
  let d2 := ["Gross Wt. (lbs)", "Degree of saturation", "CBR"].foldl coerceStep d
  (dfFromRows [d2]).reindex (num_cols ++ cat_cols)

/-- One iteration of the transformer scan of `get_expected_input_columns`:
a triple named "num" replaces the numeric list, one named "cat" the
categorical list, anything else is ignored. -/
def geicStep (acc : List String × List String) (t : String × List String) :
    List String × List String :=
  if t.1 = "num" then (t.2, acc.2)
  else if t.1 = "cat" then (acc.1, t.2)
  else acc

/-- `get_expected_input_columns` (`src/app.py` lines 13-22): scan the
preprocessing stage's `(name, transformer, columns)` triples (the unused
transformer is omitted); the last triple named "num" gives the numeric
list, the last named "cat" the categorical list, both defaulting to `[]`. -/
def get_expected_input_columns (transformers : List (String × List String)) :
    List String × List String :=
  transformers.foldl geicStep ([], [])

/-- The row expansion of the predict handler (`src/app.py` lines 157-168):
one row per selected aircraft with the identifier field set, or the single
base row when the schema has no "Aircraft Name" column. -/
def expandRows (cat_cols : List String) (row_base : Row)
    (aircraft_selected : List String) : List Row :=
  if "Aircraft Name" ∈ cat_cols then
    aircraft_selected.map (fun ac => setItem row_base "Aircraft Name" (Val.vStr ac))
  else [row_base]

/-- Outcome of a predict-button submission: either the empty-selection
warning (`st.warning` + `st.stop`, no inference call), or a call of
`pipeline.predict` on the reconciled table. -/
inductive Outcome where
  | warned
  | predicted (X : Table)
deriving DecidableEq, Repr

/-- The predict handler of `src/app.py` lines 154-190 up to the inference
call: guard the empty aircraft selection, expand, coerce, reindex. -/
def predictHandler (num_cols cat_cols : List String) (row_base : Row)
    (aircraft_selected : List String) : Outcome :=
  if "Aircraft Name" ∈ cat_cols ∧ aircraft_selected = [] then .warned
  else .predicted (reconcileRows num_cols cat_cols
    (expandRows cat_cols row_base aircraft_selected))

/-- The label mapping of `src/app.py` line 191 as written,
`np.where(pred.astype(int) == 1, "Overloaded", "Safe")` (the integer
labels are already integers, so `astype(int)` is the identity). -/
def renderLabels (pred : List Int) : List String :=
  pred.map (fun p => if p = 1 then "Overloaded" else "Safe")

/-- The fixed target columns of `extract_choices_from_excel`. -/
def targetCols : List String :=
  ["Aircraft Name", "Subgrade soil type", "Subgrade Categories (FAA)"]

/-- pandas `Series.unique`: deduplicate keeping first occurrences. -/
def dedupFirst (l : List String) : List String := l.foldl insertKey []

/-- Lexicographic code-point comparison of character lists: the order
Python's `sorted` uses on strings. -/
def charListLe : List Char → List Char → Bool
  | [], _ => true
  | _ :: _, [] => false
  | a :: as, b :: bs => if a < b then true else if b < a then false else charListLe as bs

/-- Python's string order: lexicographic by code point. -/
def strLe (a b : String) : Bool := charListLe a.toList b.toList

/-- The value list built for one present target column (`src/app.py`
lines 41-42): drop nulls, stringify (a cell is modelled as `Option String`
carrying its string form, `none` for a null), trim, deduplicate, drop
empty strings, sort lexicographically (`sorted`, modelled by insertion
sort — same sorted result). -/
def choiceVals (cells : List (Option String)) : List String :=
  List.insertionSort (fun a b => strLe a b = true)
    ((dedupFirst ((cells.filterMap id).map pyStrip)).filter (fun v => v ≠ ""))

/-- One iteration of the choice-building loop (`src/app.py` lines 39-43):
a target column present in the trimmed sheet contributes its value list,
an absent one is skipped. -/
def chooseStep (sheet2 : List (String × List (Option String)))
    (choices : List (String × List String)) (col : String) :
    List (String × List String) :=
  match List.lookup col sheet2 with
  | some cells => choices ++ [(col, choiceVals cells)]
  | none => choices

/-- `extract_choices_from_excel` (`src/app.py` lines 24-44) after the sheet
is read: the sheet is its column list (header, cells); headers are trimmed,
and each target column present in the sheet contributes its value list. -/
def extract_choices_from_excel (sheet : List (String × List (Option String))) :
    List (String × List String) :=
  targetCols.foldl (chooseStep (sheet.map (fun p => (pyStrip p.1, p.2)))) []

/-- The value the coercion loop leaves under a known-numeric key whose
current value is `v`: the float on success, `v` itself otherwise. -/
def coerceVal (v : Val) : Val :=
  if v ≠ Val.vNone ∧ v ≠ Val.vStr "" then
    match pyFloat v with
    | some q => Val.vNum q
    | none => v
  else v

example : parseFloat "85" = some 85 := by decide
example : parseFloat " -3.5 " = some (mkRat (-7) 2) := by decide
example : parseFloat "bad" = none := by decide
example : pyStrip (pyReplaceAll "85%" '%') = "85" := by decide
example : pyStrip (pyReplaceAll " bad % " '%') = "bad" := by decide

theorem rlookup_eq_none_iff (r : Row) (k : String) :
    rlookup r k = none ↔ k ∉ keysOf r := by
  induction r with
  | nil => simp [rlookup, keysOf]
  | cons p r ih =>
      obtain ⟨a, v⟩ := p
      by_cases h : a = k
      · subst h; simp [rlookup, keysOf]
      · have hk : ¬k = a := fun hh => h hh.symm
        simp only [keysOf, List.map_cons, List.mem_cons] at ih ⊢
        simp [rlookup, h, hk, ih]

theorem keysOf_setKey (r : Row) (k : String) (v : Val) :
    keysOf (setKey r k v) = keysOf r := by
  unfold keysOf setKey
  rw [List.map_map]
  refine List.map_congr_left (fun p _ => ?_)
  by_cases h : p.1 = k
  · simp [Function.comp, h]
  · simp [Function.comp, h]

theorem rlookup_setKey_ne (r : Row) {k k' : String} (v : Val) (h : k' ≠ k) :
    rlookup (setKey r k v) k' = rlookup r k' := by
  induction r with
  | nil => rfl
  | cons p r ih =>
      obtain ⟨a, w⟩ := p
      show rlookup ((if a = k then (k, v) else (a, w)) :: setKey r k v) k'
          = rlookup ((a, w) :: r) k'
      by_cases hak : a = k
      · rw [if_pos hak]
        show (if k = k' then some v else rlookup (setKey r k v) k')
            = (if a = k' then some w else rlookup r k')
        rw [if_neg (Ne.symm h), if_neg (hak ▸ Ne.symm h), ih]
      · rw [if_neg hak]
        show (if a = k' then some w else rlookup (setKey r k v) k')
            = (if a = k' then some w else rlookup r k')
        by_cases hak' : a = k' <;> simp [hak', ih]

theorem rlookup_setKey_self (r : Row) (k : String) (v w : Val)
    (h : rlookup r k = some w) : rlookup (setKey r k v) k = some v := by
  induction r with
  | nil => simp [rlookup] at h
  | cons p r ih =>
      obtain ⟨a, u⟩ := p
      show rlookup ((if a = k then (k, v) else (a, u)) :: setKey r k v) k = some v
      by_cases hak : a = k
      · rw [if_pos hak]
        show (if k = k then some v else rlookup (setKey r k v) k) = some v
        rw [if_pos rfl]
      · rw [if_neg hak]
        show (if a = k then some u else rlookup (setKey r k v) k) = some v
        rw [if_neg hak]
        exact ih (by simpa [rlookup, hak] using h)

theorem rlookup_append (r s : Row) (k : String) :
    rlookup (r ++ s) k =
      match rlookup r k with
      | some v => some v
      | none => rlookup s k := by
  induction r with
  | nil => simp [rlookup]
  | cons p r ih =>
      obtain ⟨a, u⟩ := p
      by_cases ha : a = k <;> simp [rlookup, ha, ih]

theorem rlookup_setItem_self (r : Row) (k : String) (v : Val) :
    rlookup (setItem r k v) k = some v := by
  unfold setItem
  cases h : rlookup r k with
  | some w => simp [h, rlookup_setKey_self r k v w h]
  | none => simp [h, rlookup_append, rlookup]

theorem rlookup_setItem_ne (r : Row) {k k' : String} (v : Val) (h : k' ≠ k) :
    rlookup (setItem r k v) k' = rlookup r k' := by
  unfold setItem
  cases hl : rlookup r k with
  | some w => simp [rlookup_setKey_ne r v h]
  | none =>
      simp [rlookup_append, rlookup, Ne.symm h]
      cases rlookup r k' <;> simp

/-- The saturation pre-step of the coercion (`src/app.py` lines 173-174):
when "Degree of saturation" holds a string, remove the percent signs and
trim the whitespace. -/
def stripDoS (d : Row) : Row :=
  match rlookup d "Degree of saturation" with
  | some (Val.vStr s) =>
      setKey d "Degree of saturation" (Val.vStr (pyStrip (pyReplaceAll s '%')))
  | _ => d

theorem keysOf_coerceStep (dd : Row) (k : String) :
    keysOf (coerceStep dd k) = keysOf dd := by
  unfold coerceStep
  cases rlookup dd k with
  | none => rfl
  | some v =>
      by_cases hg : v ≠ Val.vNone ∧ v ≠ Val.vStr "" <;>
        simp [hg] <;> cases pyFloat v <;> simp [keysOf_setKey]

theorem rlookup_coerceStep_ne (dd : Row) {k k' : String} (h : k' ≠ k) :
    rlookup (coerceStep dd k) k' = rlookup dd k' := by
  unfold coerceStep
  cases rlookup dd k with
  | none => rfl
  | some v =>
      by_cases hg : v ≠ Val.vNone ∧ v ≠ Val.vStr "" <;>
        simp [hg] <;> cases pyFloat v <;> simp [rlookup_setKey_ne dd _ h]

theorem rlookup_coerceStep_self (dd : Row) (k : String) (v : Val)
    (h : rlookup dd k = some v) :
    rlookup (coerceStep dd k) k = some (coerceVal v) := by
  unfold coerceStep coerceVal
  rw [h]
  by_cases hg : v ≠ Val.vNone ∧ v ≠ Val.vStr ""
  · cases hpf : pyFloat v with
    | some q => simp [hg, hpf, rlookup_setKey_self dd k _ v h]
    | none => simp [hg, hpf, h]
  · simp [hg, h]

theorem coerce_numeric_def (d : Row) :
    coerce_numeric d =
      coerceStep (coerceStep (coerceStep (stripDoS d) "Gross Wt. (lbs)")
        "Degree of saturation") "CBR" := rfl

theorem keysOf_stripDoS (d : Row) : keysOf (stripDoS d) = keysOf d := by
  unfold stripDoS
  cases h : rlookup d "Degree of saturation" with
  | none => rfl
  | some v => cases v <;> simp [keysOf_setKey]

theorem rlookup_stripDoS_ne (d : Row) {k : String}
    (h : k ≠ "Degree of saturation") :
    rlookup (stripDoS d) k = rlookup d k := by
  unfold stripDoS
  cases hl : rlookup d "Degree of saturation" with
  | none => rfl
  | some v => cases v <;> simp [rlookup_setKey_ne d _ h]

theorem rlookup_stripDoS_str (d : Row) (s : String)
    (h : rlookup d "Degree of saturation" = some (Val.vStr s)) :
    rlookup (stripDoS d) "Degree of saturation"
      = some (Val.vStr (pyStrip (pyReplaceAll s '%'))) := by
  unfold stripDoS
  rw [h]
  exact rlookup_setKey_self d _ _ _ h

theorem keysOf_coerce_numeric (d : Row) : keysOf (coerce_numeric d) = keysOf d := by
  rw [coerce_numeric_def, keysOf_coerceStep, keysOf_coerceStep, keysOf_coerceStep,
    keysOf_stripDoS]

theorem rlookup_coerce_numeric_other (d : Row) (k : String)
    (h1 : k ≠ "Gross Wt. (lbs)") (h2 : k ≠ "Degree of saturation")
    (h3 : k ≠ "CBR") :
    rlookup (coerce_numeric d) k = rlookup d k := by
  rw [coerce_numeric_def, rlookup_coerceStep_ne _ h3, rlookup_coerceStep_ne _ h2,
    rlookup_coerceStep_ne _ h1, rlookup_stripDoS_ne _ h2]

theorem rlookup_coerce_numeric_GW (d : Row) (v : Val)
    (h : rlookup d "Gross Wt. (lbs)" = some v) :
    rlookup (coerce_numeric d) "Gross Wt. (lbs)" = some (coerceVal v) := by
  have hne1 : ("Gross Wt. (lbs)" : String) ≠ "Degree of saturation" := by decide
  have hne2 : ("Gross Wt. (lbs)" : String) ≠ "CBR" := by decide
  rw [coerce_numeric_def, rlookup_coerceStep_ne _ hne2, rlookup_coerceStep_ne _ hne1]
  exact rlookup_coerceStep_self _ _ v (by rw [rlookup_stripDoS_ne _ hne1]; exact h)

theorem rlookup_coerce_numeric_CBR (d : Row) (v : Val)
    (h : rlookup d "CBR" = some v) :
    rlookup (coerce_numeric d) "CBR" = some (coerceVal v) := by
  have hne1 : ("CBR" : String) ≠ "Gross Wt. (lbs)" := by decide
  have hne2 : ("CBR" : String) ≠ "Degree of saturation" := by decide
  rw [coerce_numeric_def]
  refine rlookup_coerceStep_self _ _ v ?_
  rw [rlookup_coerceStep_ne _ hne2, rlookup_coerceStep_ne _ hne1,
    rlookup_stripDoS_ne _ hne2]
  exact h

theorem rlookup_coerce_numeric_DoS (d : Row) (s : String)
    (h : rlookup d "Degree of saturation" = some (Val.vStr s)) :
    rlookup (coerce_numeric d) "Degree of saturation"
      = some (coerceVal (Val.vStr (pyStrip (pyReplaceAll s '%')))) := by
  have hne1 : ("Degree of saturation" : String) ≠ "Gross Wt. (lbs)" := by decide
  have hne3 : ("Degree of saturation" : String) ≠ "CBR" := by decide
  rw [coerce_numeric_def, rlookup_coerceStep_ne _ hne3]
  refine rlookup_coerceStep_self _ _ _ ?_
  rw [rlookup_coerceStep_ne _ hne1]
  exact rlookup_stripDoS_str d s h

theorem coerceVal_of_pyFloat_none (v : Val) (h : pyFloat v = none) :
    coerceVal v = v := by
  unfold coerceVal
  by_cases hg : v ≠ Val.vNone ∧ v ≠ Val.vStr "" <;> simp [hg, h]

theorem lookup_zip_map (l : List String) (f : String → Val) (c : String) :
    List.lookup c (l.zip (l.map f)) = if c ∈ l then some (f c) else none := by
  induction l with
  | nil => simp
  | cons a l ih =>
      simp only [List.map_cons, List.zip_cons_cons, List.lookup_cons]
      by_cases h : c = a
      · subst h; simp
      · have hb : (c == a) = false := beq_eq_false_iff_ne.mpr h
        rw [hb]
        simp [h, ih, List.mem_cons]

theorem mem_insertKey (acc : List String) (k x : String) :
    x ∈ insertKey acc k ↔ x ∈ acc ∨ x = k := by
  unfold insertKey
  by_cases h : k ∈ acc
  · rw [if_pos h]
    constructor
    · exact Or.inl
    · rintro (hx | rfl)
      · exact hx
      · exact h
  · rw [if_neg h]
    simp [List.mem_append]

theorem mem_foldl_insertKey (l acc : List String) (x : String) :
    x ∈ l.foldl insertKey acc ↔ x ∈ acc ∨ x ∈ l := by
  induction l generalizing acc with
  | nil => simp
  | cons a l ih => simp [List.foldl_cons, ih, mem_insertKey, List.mem_cons, or_assoc]

theorem mem_unionKeys (rows : List Row) (x : String) :
    x ∈ unionKeys rows ↔ ∃ r ∈ rows, x ∈ keysOf r := by
  unfold unionKeys
  suffices h : ∀ acc, x ∈ rows.foldl (fun acc r => (keysOf r).foldl insertKey acc) acc
      ↔ x ∈ acc ∨ ∃ r ∈ rows, x ∈ keysOf r by
    simpa using h []
  intro acc
  induction rows generalizing acc with
  | nil => simp
  | cons r rows ih =>
      simp only [List.foldl_cons, ih, mem_foldl_insertKey, List.mem_cons]
      constructor
      · rintro (((ha | hk) | ⟨r', hr', hk'⟩))
        · exact Or.inl ha
        · exact Or.inr ⟨r, Or.inl rfl, hk⟩
        · exact Or.inr ⟨r', Or.inr hr', hk'⟩
      · rintro (ha | ⟨r', (rfl | hr'), hk'⟩)
        · exact Or.inl (Or.inl ha)
        · exact Or.inl (Or.inr hk')
        · exact Or.inr ⟨r', hr', hk'⟩

theorem colVals_reindex_dfFromRows (rows : List Row) (cols : List String)
    (c : String) (hc : c ∈ cols) :
    ((dfFromRows rows).reindex cols).colVals c
      = rows.map (fun r => (rlookup r c).getD Val.vNone) := by
  unfold dfFromRows Table.reindex Table.colVals
  simp only [List.map_map]
  refine List.map_congr_left (fun r hr => ?_)
  simp only [Function.comp_apply]
  rw [lookup_zip_map, if_pos hc, Option.getD_some, lookup_zip_map]
  by_cases hU : c ∈ unionKeys rows
  · rw [if_pos hU, Option.getD_some]
  · rw [if_neg hU, Option.getD_none]
    have hnone : rlookup r c = none :=
      (rlookup_eq_none_iff r c).mpr
        (fun hk => hU ((mem_unionKeys rows c).mpr ⟨r, hr, hk⟩))
    rw [hnone, Option.getD_none]

theorem reconcileRows_cols (num cat : List String) (rows : List Row) :
    (reconcileRows num cat rows).cols = num ++ cat := rfl

theorem colVals_reconcileRows (num cat : List String) (rows : List Row)
    (c : String) (hc : c ∈ num ++ cat) :
    (reconcileRows num cat rows).colVals c
      = rows.map (fun r => (rlookup (coerce_numeric r) c).getD Val.vNone) := by
  unfold reconcileRows
  rw [colVals_reindex_dfFromRows _ _ _ hc, List.map_map]
  rfl

theorem build_input_df_eq_batch (num cat : List String) (d : Row) :
    build_input_df num cat d = reconcileRows num cat [d] := rfl

theorem nodup_insertKey (acc : List String) (k : String) (h : acc.Nodup) :
    (insertKey acc k).Nodup := by
  unfold insertKey
  by_cases hk : k ∈ acc
  · rwa [if_pos hk]
  · rw [if_neg hk]
    simp [List.nodup_append, h, hk]

theorem nodup_foldl_insertKey (l acc : List String) (h : acc.Nodup) :
    (l.foldl insertKey acc).Nodup := by
  induction l generalizing acc with
  | nil => exact h
  | cons a l ih => exact ih _ (nodup_insertKey acc a h)

theorem dedupFirst_nodup (l : List String) : (dedupFirst l).Nodup :=
  nodup_foldl_insertKey l [] List.nodup_nil

theorem charListLe_total (as bs : List Char) :
    charListLe as bs = true ∨ charListLe bs as = true := by
  induction as generalizing bs with
  | nil => left; rfl
  | cons a as ih =>
      cases bs with
      | nil => right; rfl
      | cons b bs =>
          rcases lt_trichotomy a b with h | h | h
          · left
            simp only [charListLe, if_pos h]
          · subst h
            simp only [charListLe, if_neg (lt_irrefl a)]
            exact ih bs
          · right
            simp only [charListLe, if_pos h]

theorem charListLe_trans (as bs cs : List Char)
    (h1 : charListLe as bs = true) (h2 : charListLe bs cs = true) :
    charListLe as cs = true := by
  induction as generalizing bs cs with
  | nil => rfl
  | cons a as ih =>
      cases bs with
      | nil => simp [charListLe] at h1
      | cons b bs =>
          cases cs with
          | nil => simp [charListLe] at h2
          | cons c cs =>
              rcases lt_trichotomy a b with hab | hab | hab
              · rcases lt_trichotomy b c with hbc | hbc | hbc
                · simp only [charListLe, if_pos (lt_trans hab hbc)]
                · subst hbc
                  simp only [charListLe, if_pos hab]
                · simp only [charListLe, if_neg (asymm hbc), if_pos hbc] at h2
                  exact Bool.noConfusion h2
              · subst hab
                rcases lt_trichotomy a c with hac | hac | hac
                · simp only [charListLe, if_pos hac]
                · subst hac
                  simp only [charListLe, if_neg (lt_irrefl a)] at h1 h2 ⊢
                  exact ih bs cs h1 h2
                · simp only [charListLe, if_neg (asymm hac), if_pos hac] at h2
                  exact Bool.noConfusion h2
              · simp only [charListLe, if_neg (asymm hab), if_pos hab] at h1
                exact Bool.noConfusion h1

instance : IsTotal String (fun a b => strLe a b = true) :=
  ⟨fun a b => charListLe_total a.toList b.toList⟩

instance : IsTrans String (fun a b => strLe a b = true) :=
  ⟨fun a b c => charListLe_trans a.toList b.toList c.toList⟩

theorem choiceVals_sorted (cells : List (Option String)) :
    List.Sorted (fun a b : String => strLe a b = true) (choiceVals cells) :=
  List.sorted_insertionSort _ _

theorem choiceVals_nodup (cells : List (Option String)) :
    (choiceVals cells).Nodup :=
  ((List.perm_insertionSort _ _).nodup_iff).mpr
    ((dedupFirst_nodup _).filter _)

theorem choiceVals_not_mem_empty (cells : List (Option String)) :
    "" ∉ choiceVals cells := by
  intro h
  have h2 := (List.perm_insertionSort _ _).mem_iff.mp h
  have h3 := List.of_mem_filter h2
  simp at h3

theorem lookup_some_mem_keys {β : Type} (l : List (String × β)) (a : String)
    (b : β) (h : List.lookup a l = some b) : a ∈ l.map Prod.fst := by
  induction l with
  | nil => simp [List.lookup] at h
  | cons p l ih =>
      obtain ⟨k, v⟩ := p
      by_cases hk : a = k
      · simp [hk]
      · have hb : (a == k) = false := beq_eq_false_iff_ne.mpr hk
        rw [List.lookup_cons, hb] at h
        simp only [List.map_cons, List.mem_cons]
        exact Or.inr (ih h)

theorem mem_foldl_chooseStep (s2 : List (String × List (Option String)))
    (cols : List String) (acc : List (String × List String))
    (p : String × List String) (hp : p ∈ cols.foldl (chooseStep s2) acc) :
    p ∈ acc ∨ (p.1 ∈ cols ∧
      ∃ cells, List.lookup p.1 s2 = some cells ∧ p.2 = choiceVals cells) := by
  induction cols generalizing acc with
  | nil => exact Or.inl hp
  | cons c cols ih =>
      rw [List.foldl_cons] at hp
      rcases ih _ hp with hacc | ⟨hc, cells, hl, hv⟩
      · unfold chooseStep at hacc
        cases hcell : List.lookup c s2 with
        | none => rw [hcell] at hacc; exact Or.inl hacc
        | some cells =>
            rw [hcell] at hacc
            rcases List.mem_append.mp hacc with h1 | h2
            · exact Or.inl h1
            · have hpc : p = (c, choiceVals cells) := by simpa using h2
              subst hpc
              exact Or.inr ⟨List.mem_cons_self _ _, cells, hcell, rfl⟩
      · exact Or.inr ⟨List.mem_cons_of_mem _ hc, cells, hl, hv⟩

theorem geic_foldl_snd (ts : List (String × List String))
    (acc : List String × List String) (h : ∀ t ∈ ts, t.1 ≠ "cat") :
    (ts.foldl geicStep acc).2 = acc.2 := by
  induction ts generalizing acc with
  | nil => rfl
  | cons t ts ih =>
      rw [List.foldl_cons, ih _ (fun u hu => h u (List.mem_cons_of_mem _ hu))]
      have hcat := h t (List.mem_cons_self _ _)
      unfold geicStep
      by_cases hn : t.1 = "num"
      · rw [if_pos hn]
      · rw [if_neg hn, if_neg hcat]

theorem geic_foldl_fst (ts : List (String × List String))
    (acc : List String × List String) (h : ∀ t ∈ ts, t.1 ≠ "num") :
    (ts.foldl geicStep acc).1 = acc.1 := by
  induction ts generalizing acc with
  | nil => rfl
  | cons t ts ih =>
      rw [List.foldl_cons, ih _ (fun u hu => h u (List.mem_cons_of_mem _ hu))]
      have hnum := h t (List.mem_cons_self _ _)
      unfold geicStep
      rw [if_neg hnum]
      by_cases hc : t.1 = "cat"
      · rw [if_pos hc]
      · rw [if_neg hc]

/-- C1: for every schema (numeric list, categorical list) and every input
row — any key order, keys outside the schema, schema columns missing —
the reconciled table has exactly the columns numeric ++ categorical in
that order; every schema column's value is looked up by name in the
(coerced) row, so non-schema row fields are dropped, and a schema column
absent from the row holds the missing value. -/
theorem C1_reconciled_table_schema (num cat : List String) (d : Row) :
    (reconcileRows num cat [d]).cols = num ++ cat ∧
    (∀ c ∈ num ++ cat,
      (reconcileRows num cat [d]).colVals c
        = [(rlookup (coerce_numeric d) c).getD Val.vNone]) ∧
    (∀ c ∈ num ++ cat, c ∉ keysOf d →
      (reconcileRows num cat [d]).colVals c = [Val.vNone]) := by
  refine ⟨rfl, ?_, ?_⟩
  · intro c hc
    rw [colVals_reconcileRows _ _ _ _ hc]
    rfl
  · intro c hc hk
    rw [colVals_reconcileRows _ _ _ _ hc]
    have hnone : rlookup (coerce_numeric d) c = none := by
      rw [rlookup_eq_none_iff, keysOf_coerce_numeric]
      exact hk
    simp [hnone]

/-- Witness for C1 at a concrete schema and row: a non-schema field is
dropped and a missing schema column becomes the missing value. -/
theorem C1_reconciled_table_schema_witness :
    (reconcileRows ["CBR"] ["Subgrade soil type"]
        [[("Junk", Val.vNum 1), ("Subgrade soil type", Val.vStr "clay")]]).cols
      = ["CBR", "Subgrade soil type"] ∧
    (reconcileRows ["CBR"] ["Subgrade soil type"]
        [[("Junk", Val.vNum 1), ("Subgrade soil type", Val.vStr "clay")]]).colVals "CBR"
      = [Val.vNone] :=
  ⟨(C1_reconciled_table_schema ["CBR"] ["Subgrade soil type"] _).1,
   (C1_reconciled_table_schema ["CBR"] ["Subgrade soil type"]
      [("Junk", Val.vNum 1), ("Subgrade soil type", Val.vStr "clay")]).2.2
      "CBR" (by decide) (by decide)⟩

/-- C2: with "Aircraft Name" among the categorical columns, the Batch
Expander yields one row per selected identifier — each row carries one of
the selected identifiers, agrees with the shared base row on every other
field (hence the rows are pairwise identical except in the identifier),
and every selected identifier appears; without "Aircraft Name" in the
schema, exactly the single base row is produced. -/
theorem C2_batch_expander (cat : List String) (base : Row) (sel : List String) :
    ("Aircraft Name" ∈ cat →
      (expandRows cat base sel).length = sel.length ∧
      (∀ r ∈ expandRows cat base sel,
        (∃ ac ∈ sel, rlookup r "Aircraft Name" = some (Val.vStr ac)) ∧
        ∀ k, k ≠ "Aircraft Name" → rlookup r k = rlookup base k) ∧
      (∀ ac ∈ sel, ∃ r ∈ expandRows cat base sel,
        rlookup r "Aircraft Name" = some (Val.vStr ac)))
    ∧ ("Aircraft Name" ∉ cat → expandRows cat base sel = [base]) := by
  constructor
  · intro hAN
    unfold expandRows
    rw [if_pos hAN]
    refine ⟨by simp, ?_, ?_⟩
    · intro r hr
      rcases List.mem_map.mp hr with ⟨ac, hac, rfl⟩
      exact ⟨⟨ac, hac, rlookup_setItem_self base _ _⟩,
        fun k hk => rlookup_setItem_ne base _ hk⟩
    · intro ac hac
      exact ⟨setItem base "Aircraft Name" (Val.vStr ac),
        List.mem_map_of_mem _ hac, rlookup_setItem_self base _ _⟩
  · intro hAN
    unfold expandRows
    rw [if_neg hAN]

/-- Witness for C2 at a concrete schema, base row and selection of two
aircraft, and at a schema without the identifier column. -/
theorem C2_batch_expander_witness :
    (expandRows ["Aircraft Name"] [("CBR", Val.vNum 6)] ["A320", "B737"]).length
      = (["A320", "B737"] : List String).length ∧
    expandRows ["Subgrade soil type"] [("CBR", Val.vNum 6)] ["A320"]
      = [[("CBR", Val.vNum 6)]] :=
  ⟨((C2_batch_expander ["Aircraft Name"] [("CBR", Val.vNum 6)]
      ["A320", "B737"]).1 (by decide)).1,
   (C2_batch_expander ["Subgrade soil type"] [("CBR", Val.vNum 6)]
      ["A320"]).2 (by decide)⟩

/-- C3: the label mapping written at `src/app.py` line 191,
`np.where(pred.astype(int) == 1, "Overloaded", "Safe")`, evaluated at the
label array `[1, 0, 1]`, yields `["Overloaded", "Safe", "Overloaded"]` —
the claimed rendering. (The surrounding file, however, never imports
numpy, so executing that line raises `NameError` and no label is actually
rendered by the batch variant.) -/
theorem C3_label_mapping :
    renderLabels [1, 0, 1] = ["Overloaded", "Safe", "Overloaded"] := by decide

/-- Counterexample to C4 as stated: the saturation value `"bad%"` cannot
be float-converted, yet the coercion step does not leave it unchanged —
the `%`-stripped string `"bad"` remains in the output row. -/
theorem C4_counterexample :
    pyFloat (Val.vStr "bad%") = none ∧
    rlookup (coerce_numeric [("Degree of saturation", Val.vStr "bad%")])
        "Degree of saturation" = some (Val.vStr "bad") ∧
    Val.vStr "bad" ≠ Val.vStr "bad%" := by decide

/-- C4 (amended): the coercion never raises; for "Gross Wt. (lbs)" and
"CBR" a value that cannot be float-converted passes through unchanged;
for "Degree of saturation" a string value is first stripped of percent
signs and surrounding whitespace, and on conversion failure that stripped
string — not the original — is what remains. -/
theorem C4_coercion_failure_amended (d : Row) (v : Val) (s : String) :
    (rlookup d "Gross Wt. (lbs)" = some v → pyFloat v = none →
      rlookup (coerce_numeric d) "Gross Wt. (lbs)" = some v) ∧
    (rlookup d "CBR" = some v → pyFloat v = none →
      rlookup (coerce_numeric d) "CBR" = some v) ∧
    (rlookup d "Degree of saturation" = some (Val.vStr s) →
      parseFloat (pyStrip (pyReplaceAll s '%')) = none →
      rlookup (coerce_numeric d) "Degree of saturation"
        = some (Val.vStr (pyStrip (pyReplaceAll s '%')))) := by
  refine ⟨fun h hpf => ?_, fun h hpf => ?_, fun h hpf => ?_⟩
  · rw [rlookup_coerce_numeric_GW d v h, coerceVal_of_pyFloat_none v hpf]
  · rw [rlookup_coerce_numeric_CBR d v h, coerceVal_of_pyFloat_none v hpf]
  · rw [rlookup_coerce_numeric_DoS d s h,
      coerceVal_of_pyFloat_none _ (show pyFloat (Val.vStr _) = none from hpf)]

/-- Witness for the amended C4 at a concrete row: unconvertible weight and
`None`-valued CBR pass through; the unconvertible saturation string keeps
its stripped form. -/
theorem C4_coercion_failure_amended_witness :
    rlookup (coerce_numeric
        [("Gross Wt. (lbs)", Val.vStr "abc"), ("CBR", Val.vNone),
         ("Degree of saturation", Val.vStr " n/a % ")]) "Gross Wt. (lbs)"
      = some (Val.vStr "abc") ∧
    rlookup (coerce_numeric
        [("Gross Wt. (lbs)", Val.vStr "abc"), ("CBR", Val.vNone),
         ("Degree of saturation", Val.vStr " n/a % ")]) "CBR"
      = some Val.vNone ∧
    rlookup (coerce_numeric
        [("Gross Wt. (lbs)", Val.vStr "abc"), ("CBR", Val.vNone),
         ("Degree of saturation", Val.vStr " n/a % ")]) "Degree of saturation"
      = some (Val.vStr "n/a") :=
  ⟨(C4_coercion_failure_amended _ (Val.vStr "abc") "").1 (by decide) (by decide),
   (C4_coercion_failure_amended _ Val.vNone "").2.1 (by decide) (by decide),
   (C4_coercion_failure_amended _ Val.vNone " n/a % ").2.2 (by decide) (by decide)⟩

/-- C5: every entry of the Choice Table has its key in the fixed target
set and among the sheet's (trimmed) headers — absent target columns are
omitted — and its value list is lexicographically sorted, duplicate-free
and free of empty strings. -/
theorem C5_choice_table (sheet : List (String × List (Option String)))
    (col : String) (vals : List String)
    (h : (col, vals) ∈ extract_choices_from_excel sheet) :
    col ∈ targetCols ∧ col ∈ sheet.map (fun p => pyStrip p.1) ∧
    List.Sorted (fun a b : String => strLe a b = true) vals ∧ vals.Nodup ∧ "" ∉ vals := by
  unfold extract_choices_from_excel at h
  rcases mem_foldl_chooseStep _ targetCols [] (col, vals) h with hin | ⟨hc, cells, hl, hv⟩
  · simp at hin
  · refine ⟨hc, ?_, ?_⟩
    · have hmem := lookup_some_mem_keys _ _ _ hl
      simpa [List.map_map, Function.comp] using hmem
    · have hv' : vals = choiceVals cells := hv
      subst hv'
      exact ⟨choiceVals_sorted cells, choiceVals_nodup cells,
        choiceVals_not_mem_empty cells⟩

/-- Witness for C5 at a concrete sheet: an untrimmed "Aircraft Name "
header with null, duplicate, padded and empty cells yields the sorted
deduplicated list. -/
theorem C5_choice_table_witness :
    "Aircraft Name" ∈ targetCols ∧
    "Aircraft Name" ∈ ([("Aircraft Name ",
        [some " B737 ", none, some "A320", some "B737", some ""])] :
          List (String × List (Option String))).map (fun p => pyStrip p.1) ∧
    List.Sorted (fun a b : String => strLe a b = true) ["A320", "B737"] ∧
    (["A320", "B737"] : List String).Nodup ∧
    "" ∉ (["A320", "B737"] : List String) :=
  C5_choice_table
    [("Aircraft Name ", [some " B737 ", none, some "A320", some "B737", some ""])]
    "Aircraft Name" ["A320", "B737"] (by decide)

/-- C6: a transformer list with no triple named "cat" yields an empty
categorical list, and one with no triple named "num" yields an empty
numeric list; a missing stage raises no error. -/
theorem C6_missing_stage_empty (ts : List (String × List String)) :
    ((∀ t ∈ ts, t.1 ≠ "cat") → (get_expected_input_columns ts).2 = []) ∧
    ((∀ t ∈ ts, t.1 ≠ "num") → (get_expected_input_columns ts).1 = []) := by
  constructor
  · intro h
    unfold get_expected_input_columns
    rw [geic_foldl_snd ts _ h]
  · intro h
    unfold get_expected_input_columns
    rw [geic_foldl_fst ts _ h]

/-- Witness for C6: a num-only pipeline has no categorical columns and a
cat-only pipeline has no numeric columns. -/
theorem C6_missing_stage_empty_witness :
    (get_expected_input_columns [("num", ["CBR"]), ("other", [])]).2 = [] ∧
    (get_expected_input_columns [("cat", ["Aircraft Name"])]).1 = [] :=
  ⟨(C6_missing_stage_empty [("num", ["CBR"]), ("other", [])]).1 (by decide),
   (C6_missing_stage_empty [("cat", ["Aircraft Name"])]).2 (by decide)⟩

/-- C7: when the schema's categorical columns include "Aircraft Name" and
the aircraft selection is empty, the submission ends in the warning
outcome — no reconciled table is built and the pipeline's predict is
never called. -/
theorem C7_empty_selection_guard (num cat : List String) (base : Row)
    (sel : List String) (h1 : "Aircraft Name" ∈ cat) (h2 : sel = []) :
    predictHandler num cat base sel = Outcome.warned := by
  unfold predictHandler
  rw [if_pos ⟨h1, h2⟩]

/-- Witness for C7 at a concrete schema with an empty selection. -/
theorem C7_empty_selection_guard_witness :
    predictHandler ["CBR"] ["Aircraft Name"] [("CBR", Val.vNum 6)] []
      = Outcome.warned :=
  C7_empty_selection_guard ["CBR"] ["Aircraft Name"] [("CBR", Val.vNum 6)] []
    (by decide) rfl

/-- C8: whenever "Degree of saturation" is a numeric schema column and the
input row holds the string "85%" there, the reconciled table's saturation
column contains the float 85.0. -/
theorem C8_saturation_percent (num cat : List String) (row : Row)
    (h1 : "Degree of saturation" ∈ num)
    (h2 : rlookup row "Degree of saturation" = some (Val.vStr "85%")) :
    (build_input_df num cat row).colVals "Degree of saturation"
      = [Val.vNum 85] := by
  rw [build_input_df_eq_batch,
    colVals_reconcileRows _ _ _ _ (List.mem_append_left _ h1)]
  simp only [List.map_cons, List.map_nil]
  rw [rlookup_coerce_numeric_DoS row "85%" h2]
  decide

/-- Witness for C8 at the concrete one-field schema and row. -/
theorem C8_saturation_percent_witness :
    (build_input_df ["Degree of saturation"] []
        [("Degree of saturation", Val.vStr "85%")]).colVals "Degree of saturation"
      = [Val.vNum 85] :=
  C8_saturation_percent ["Degree of saturation"] []
    [("Degree of saturation", Val.vStr "85%")] (by decide) (by decide)

/-- C9: the single-row variant's reconciliation (`build_input_df` of
`src/app.py.py`) produces exactly the table the batch variant's
reconciliation (`coerce_numeric` + DataFrame + reindex of `src/app.py`)
produces on the one-row list — the single-row flow is a strict subset of
the batch flow. -/
theorem C9_single_refines_batch (num cat : List String) (d : Row) :
    build_input_df num cat d = reconcileRows num cat [d] :=
  build_input_df_eq_batch num cat d

/-- C10: numeric coercion is total and local — it preserves the row's key
list exactly (no key added or removed) and leaves the value of every key
other than the three known-numeric fields identical. -/
theorem C10_coercion_total_and_local (d : Row) :
    keysOf (coerce_numeric d) = keysOf d ∧
    ∀ k, k ∉ (["Gross Wt. (lbs)", "Degree of saturation", "CBR"] : List String) →
      rlookup (coerce_numeric d) k = rlookup d k := by
  refine ⟨keysOf_coerce_numeric d, fun k hk => ?_⟩
  simp only [List.mem_cons, List.not_mem_nil, or_false, not_or] at hk
  obtain ⟨h1, h2, h3⟩ := hk
  exact rlookup_coerce_numeric_other d k h1 h2 h3

/-- Witness for C10 at a concrete mixed row and a key outside the
known-numeric set. -/
theorem C10_coercion_total_and_local_witness :
    keysOf (coerce_numeric
        [("Aircraft Name", Val.vStr "A320"), ("CBR", Val.vStr "6")])
      = keysOf [("Aircraft Name", Val.vStr "A320"), ("CBR", Val.vStr "6")] ∧
    rlookup (coerce_numeric
        [("Aircraft Name", Val.vStr "A320"), ("CBR", Val.vStr "6")]) "Aircraft Name"
      = rlookup [("Aircraft Name", Val.vStr "A320"), ("CBR", Val.vStr "6")]
          "Aircraft Name" :=
  ⟨(C10_coercion_total_and_local _).1,
   (C10_coercion_total_and_local
      [("Aircraft Name", Val.vStr "A320"), ("CBR", Val.vStr "6")]).2
      "Aircraft Name" (by decide)⟩
